import Mathlib

/-!
Verification of the coroutine runtime's scheduler core, as implemented in
`src/scheduler/fifo_scheduler.rs`, `src/scheduler/eventloop_handler.rs`,
`src/scheduler/scheduler_wait_event.rs` and the I/O shims in `src/main.rs`.

The Rust code is shallowly embedded: queues become lists (with the end used
for push/pop made explicit), the coroutine primitive's behaviour (the state
reported by `state()`, the outcome of `resume()`, the parking activity during
a resume) is supplied as explicit oracle arguments, and logging / poller
side effects are reified as action lists so ordering claims can be stated.
-/

namespace CoroutineDemo

/-- Coroutine states, from `coroutine::coroutine::State` (external crate,
consumed by the scheduler). -/
inductive State
  | Suspended
  | Blocked
  | Running
  | Normal
  | Finished
  | Panicked
deriving DecidableEq, Repr

/-- A coroutine handle is opaque to the scheduler; we model its identity
as a natural number. -/
abbrev Handle := Nat

/-- Constant `MAX_PRIVATE_WORK_NUM: usize = 10` (fifo_scheduler.rs:36). -/
def MAX_PRIVATE_WORK_NUM : Nat := 10

/-- The queue state of one `Scheduler` (fifo_scheduler.rs:37).

`public_work_queue` is the worker end of the deque: the owner pushes at the
back; the stealer end (used both by `run_one_work_in_public_queue` and by
peers) removes from the front (FIFO).  `private_work` is the `VecDeque`:
`push_back` appends at the back, `pop_front` removes from the front. -/
structure Scheduler where
  public_work_queue : List Handle
  private_work : List Handle
deriving DecidableEq, Repr

/-- Embeds `Scheduler::ready` (fifo_scheduler.rs:144-150):

```rust
if self.private_work.is_empty() && self.private_work.len() < MAX_PRIVATE_WORK_NUM {
    self.public_work_queue.push(work);
} else {
    self.private_work.push_back(work);
}
``` -/
def Scheduler.ready (s : Scheduler) (work : Handle) : Scheduler :=
  if s.private_work.isEmpty && decide (s.private_work.length < MAX_PRIVATE_WORK_NUM) then
    { s with public_work_queue := s.public_work_queue ++ [work] }
  else
    { s with private_work := s.private_work ++ [work] }

/-- The payload of the `Err` returned by `resume()` (a `Box<Any>`), as far
as `resume_coroutine` inspects it: it may downcast to a `&'static str`, to a
`String`, or to neither. -/
inductive PanicErr
  | staticStr (s : String)
  | dynString (s : String)
  | other
deriving DecidableEq, Repr

/-- The string summary extracted from a panic payload in
`resume_coroutine` (fifo_scheduler.rs:159-165). -/
def panicMessage : PanicErr → String
  | .staticStr s => s
  | .dynString s => s
  | .other => "Box<Any>"

/-- Log calls made by `resume_coroutine`, reified. -/
inductive LogEvent
  | errorPanicked (msg : String)
  | errorBadState (st : State)
deriving DecidableEq, Repr

/-- The result of one `resume_coroutine` call. `resumed` records whether
`work.resume()` was invoked; `crashed` records whether the
`unreachable!()` arm was hit. -/
structure ResumeResult where
  sched : Scheduler
  resumed : Bool
  crashed : Bool
  logs : List LogEvent
deriving DecidableEq, Repr

/-- Embeds `Scheduler::resume_coroutine` (fifo_scheduler.rs:153-191).

`pre` is the state reported by `work.state()` on entry; when the coroutine
is actually resumed, `res` is the outcome of `work.resume()` (`some err`
iff it returned `Err(err)`), and `post` is the state reported by
`work.state()` afterwards.  These three are oracle inputs because the
coroutine primitive is external to the scheduler. -/
def Scheduler.resume_coroutine (s : Scheduler) (work : Handle) (pre : State)
    (res : Option PanicErr) (post : State) : ResumeResult :=
  match pre with
  | .Suspended | .Blocked =>
    let logs : List LogEvent :=
      match res with
      | some err => [.errorPanicked (panicMessage err)]
      | none => []
    match post with
    | .Normal | .Running =>
        { sched := s, resumed := true, crashed := true, logs := logs }
    | .Suspended =>
        { sched := s.ready work, resumed := true, crashed := false, logs := logs }
    | .Blocked =>
        { sched := s, resumed := true, crashed := false, logs := logs }
    | .Finished | .Panicked =>
        { sched := s, resumed := true, crashed := false, logs := logs }
  | _ => { sched := s, resumed := false, crashed := false, logs := [.errorBadState pre] }

/-- C1 counterexample state: a scheduler whose private queue is empty
(hence holds fewer than 10 handles). -/
def emptySched : Scheduler := { public_work_queue := [], private_work := [] }

/-- Claim C1, counterexample. The claim says: whenever the private queue
holds fewer than `P = 10` handles, `ready` appends the handle to the
private queue. At the empty scheduler the private queue holds `0 < 10`
handles, yet `ready` pushes the handle onto the shared (public) work queue
and leaves the private queue empty. -/
theorem ready_prefers_public_when_empty :
    emptySched.private_work.length < MAX_PRIVATE_WORK_NUM ∧
    (emptySched.ready 0).private_work = [] ∧
    (emptySched.ready 0).public_work_queue = [0] := by
  refine ⟨by decide, ?_, ?_⟩ <;> rfl

/-- Claim C1, amended. `ready(work)` routes by *emptiness*, not by room: the
conjunct `len < MAX_PRIVATE_WORK_NUM` is redundant given `is_empty`, so the
handle is pushed onto the shared work queue exactly when the private queue
is empty, and appended to the back of the private queue whenever the
private queue is non-empty — regardless of whether it already holds 10 or
more handles. -/
theorem ready_routes_by_emptiness (s : Scheduler) (w : Handle) :
    (s.ready w).public_work_queue =
      (if s.private_work = [] then s.public_work_queue ++ [w] else s.public_work_queue) ∧
    (s.ready w).private_work =
      (if s.private_work = [] then s.private_work else s.private_work ++ [w]) := by
  unfold Scheduler.ready
  rcases h : s.private_work with _ | ⟨a, l⟩ <;>
    simp [h, MAX_PRIVATE_WORK_NUM]

/-- Claim C2. The scheduler resumes a handle exactly when its state is
`Suspended` or `Blocked`; for any other state it logs an error and returns
with the scheduler unchanged (the handle is not resumed).  After a resume,
the handle is re-enqueued (via `ready`) exactly when its state is
`Suspended`; in particular a handle that is `Finished` or `Panicked` leaves
the queues untouched, so it is dropped and never re-enqueued or resumed
again, and the post-resume states `Normal` and `Running` land in the
`unreachable!()` arm (modelled by the `crashed` flag). -/
theorem resume_only_suspended_or_blocked (s : Scheduler) (w : Handle)
    (pre : State) (res : Option PanicErr) (post : State) :
    ((s.resume_coroutine w pre res post).resumed = true ↔
       (pre = .Suspended ∨ pre = .Blocked)) ∧
    (¬(pre = .Suspended ∨ pre = .Blocked) →
       s.resume_coroutine w pre res post =
         { sched := s, resumed := false, crashed := false,
           logs := [.errorBadState pre] }) ∧
    ((pre = .Suspended ∨ pre = .Blocked) →
       (post = .Suspended → (s.resume_coroutine w pre res post).sched = s.ready w) ∧
       (post ≠ .Suspended → (s.resume_coroutine w pre res post).sched = s) ∧
       ((s.resume_coroutine w pre res post).crashed = true ↔
          (post = .Normal ∨ post = .Running))) := by
  cases pre <;> cases post <;> cases res <;>
    simp [Scheduler.resume_coroutine]

/-- Witness for C2: a `Finished` handle is not resumed, and a handle that is
`Panicked` after its resume leaves the scheduler's queues unchanged. -/
theorem resume_only_suspended_or_blocked_witness :
    (emptySched.resume_coroutine 7 .Finished none .Finished).resumed = false ∧
    (emptySched.resume_coroutine 7 .Suspended none .Panicked).sched = emptySched := by
  constructor
  · have h := (resume_only_suspended_or_blocked emptySched 7 .Finished none .Finished).2.1
      (by intro hc; rcases hc with hc | hc <;> exact State.noConfusion hc)
    rw [h]
  · exact ((resume_only_suspended_or_blocked emptySched 7 .Suspended none .Panicked).2.2
      (Or.inl rfl)).2.1 (by intro hc; exact State.noConfusion hc)

/-- Claim C9. A panic inside a resumed coroutine is caught at the resume
boundary: `resume_coroutine` logs exactly one error with the best-effort
string extracted from the payload (`&str` downcast, then `String`, else
the literal `Box<Any>`), drops the panicked handle without re-enqueueing
it (the scheduler's queues are unchanged), and returns normally
(`crashed = false`), so the scheduler loop goes on. -/
theorem panic_caught_at_resume_boundary (s : Scheduler) (w : Handle)
    (pre : State) (err : PanicErr) (hpre : pre = .Suspended ∨ pre = .Blocked) :
    (s.resume_coroutine w pre (some err) .Panicked).logs =
      [.errorPanicked (panicMessage err)] ∧
    (s.resume_coroutine w pre (some err) .Panicked).sched = s ∧
    (s.resume_coroutine w pre (some err) .Panicked).crashed = false ∧
    (∀ m, panicMessage (.staticStr m) = m) ∧
    (∀ m, panicMessage (.dynString m) = m) ∧
    panicMessage .other = "Box<Any>" := by
  rcases hpre with h | h <;> subst h <;>
    simp [Scheduler.resume_coroutine, panicMessage]

/-- Witness for C9 at a concrete panicked coroutine. -/
theorem panic_caught_at_resume_boundary_witness :
    (emptySched.resume_coroutine 3 .Suspended (some (.staticStr "boom")) .Panicked).logs =
      [.errorPanicked "boom"] ∧
    (emptySched.resume_coroutine 3 .Suspended (some (.staticStr "boom")) .Panicked).sched =
      emptySched := by
  have h := panic_caught_at_resume_boundary emptySched 3 .Suspended
    (.staticStr "boom") (Or.inl rfl)
  exact ⟨h.1, h.2.1⟩

/-- Embeds `Scheduler::run_one_work_in_private_queue`
(fifo_scheduler.rs:218-225): `pop_front` the private queue and, if a handle
came out, resume it.  The second component records the consumed handle
(`none` corresponds to the Rust function returning `false`). -/
def Scheduler.run_one_work_in_private_queue (s : Scheduler)
    (pre : State) (res : Option PanicErr) (post : State) :
    ResumeResult × Option Handle :=
  match s.private_work with
  | [] => ({ sched := s, resumed := false, crashed := false, logs := [] }, none)
  | w :: rest =>
      (Scheduler.resume_coroutine { s with private_work := rest } w pre res post,
        some w)

/-- Embeds `Scheduler::run_one_work_in_public_queue`
(fifo_scheduler.rs:229-236): one `steal` on the scheduler's own stealer end
(FIFO: the front of the deque).  `abort` models `Stolen::Abort`
(contention), which ends the attempt without resuming even when the queue
is non-empty. -/
def Scheduler.run_one_work_in_public_queue (s : Scheduler) (abort : Bool)
    (pre : State) (res : Option PanicErr) (post : State) :
    ResumeResult × Option Handle :=
  match s.public_work_queue with
  | [] => ({ sched := s, resumed := false, crashed := false, logs := [] }, none)
  | w :: rest =>
      if abort then
        ({ sched := s, resumed := false, crashed := false, logs := [] }, none)
      else
        (Scheduler.resume_coroutine { s with public_work_queue := rest } w pre res post,
          some w)

/-- Primitive mutations of a scheduler's two queues.  Every queue mutation
in the program factors through these three: `ready` (called from `spawn`,
from the poller callbacks, from the stolen-work re-enqueue loop in
`schedule`, and from the post-resume `Suspended` arm of
`resume_coroutine`), a `pop_front` of the private queue
(`run_one_work_in_private_queue`), and a front removal of the public deque
(the owner's steal in `run_one_work_in_public_queue`, or a peer's steal of
this scheduler's queue). -/
inductive SchedStep : Scheduler → Scheduler → Prop
  | ready (s : Scheduler) (w : Handle) : SchedStep s (s.ready w)
  | popPrivate (s : Scheduler) (w : Handle) (rest : List Handle)
      (h : s.private_work = w :: rest) :
      SchedStep s { s with private_work := rest }
  | popPublic (s : Scheduler) (w : Handle) (rest : List Handle)
      (h : s.public_work_queue = w :: rest) :
      SchedStep s { s with public_work_queue := rest }

/-- States reachable from the freshly constructed scheduler
(`Scheduler::new` starts with an empty deque and an empty `VecDeque`). -/
def SchedReachable (s : Scheduler) : Prop :=
  Relation.ReflTransGen SchedStep emptySched s

/-- Auxiliary invariant: each primitive queue step preserves emptiness of
the private queue, because `ready` routes to the public queue whenever the
private queue is empty. -/
lemma schedStep_private_empty {s t : Scheduler} (hs : s.private_work = [])
    (h : SchedStep s t) : t.private_work = [] := by
  cases h with
  | ready w =>
      unfold Scheduler.ready
      simp [hs, MAX_PRIVATE_WORK_NUM]
  | popPrivate w rest hcons => rw [hs] at hcons; exact List.noConfusion hcons
  | popPublic w rest hcons => simpa using hs

/-- Auxiliary invariant: the private queue of any reachable scheduler state
is empty.  The only way the private queue could grow is the `else` branch
of `ready`, which requires the private queue to be non-empty already. -/
lemma schedReachable_private_empty {s : Scheduler} (h : SchedReachable s) :
    s.private_work = [] := by
  induction h with
  | refl => rfl
  | tail _ hstep ih => exact schedStep_private_empty ih hstep

/-- Claim C5. On every reachable scheduler state the private queue holds at
most `P = 10` handles (in this implementation it is in fact always empty,
since `ready` routes to the shared queue precisely when the private queue
is empty), every primitive queue operation preserves the bound, and the
queue discipline is FIFO: `ready` only ever appends at the back of the
private queue, and the private-queue drain consumes the front handle. -/
theorem private_queue_bounded_fifo (s : Scheduler) (h : SchedReachable s) :
    s.private_work.length ≤ MAX_PRIVATE_WORK_NUM ∧
    (∀ t, SchedStep s t → t.private_work.length ≤ MAX_PRIVATE_WORK_NUM) ∧
    (∀ (u : Scheduler) (w : Handle),
       (u.ready w).private_work = u.private_work ∨
       (u.ready w).private_work = u.private_work ++ [w]) ∧
    (∀ (u : Scheduler) (w : Handle) (rest : List Handle),
       u.private_work = w :: rest → ∀ pre res post,
         (u.run_one_work_in_private_queue pre res post).2 = some w) := by
  refine ⟨?_, ?_, ?_, ?_⟩
  · rw [schedReachable_private_empty h]
    simp [MAX_PRIVATE_WORK_NUM]
  · intro t hstep
    rw [schedStep_private_empty (schedReachable_private_empty h) hstep]
    simp [MAX_PRIVATE_WORK_NUM]
  · intro u w
    unfold Scheduler.ready
    by_cases hu : u.private_work.isEmpty &&
        decide (u.private_work.length < MAX_PRIVATE_WORK_NUM)
    · left; simp [hu]
    · right; simp [hu]
  · intro u w rest hu pre res post
    unfold Scheduler.run_one_work_in_private_queue
    split
    · next heq => rw [hu] at heq; exact List.noConfusion heq
    · next w' rest' heq =>
        rw [hu] at heq
        cases heq
        rfl

/-- Witness for C5 at the initial scheduler state. -/
theorem private_queue_bounded_fifo_witness :
    emptySched.private_work.length ≤ MAX_PRIVATE_WORK_NUM ∧
    (emptySched.ready 4).private_work = emptySched.private_work ∨
    (emptySched.ready 4).private_work = emptySched.private_work ++ [4] := by
  have h := private_queue_bounded_fifo emptySched Relation.ReflTransGen.refl
  rcases h.2.2.1 emptySched 4 with h4 | h4
  · exact Or.inl ⟨h.1, h4⟩
  · exact Or.inr h4

/-- Lookup in a slab, modelled as an association list from tokens to
records (`mio::util::Slab` keeps live tokens unique). -/
def slabLookup {α : Type} (t : Nat) : List (Nat × α) → Option α
  | [] => none
  | (k, v) :: rest => if k = t then some v else slabLookup t rest

/-- Removal of a token's slot from a slab (the effect of
`Slab::remove(token)` on the table). -/
def slabRemoveEntry {α : Type} (t : Nat) : List (Nat × α) → List (Nat × α)
  | [] => []
  | (k, v) :: rest => if k = t then rest else (k, v) :: slabRemoveEntry t rest

lemma slabLookup_eq_none_of_not_mem {α : Type} (t : Nat) (l : List (Nat × α))
    (h : t ∉ l.map Prod.fst) : slabLookup t l = none := by
  induction l with
  | nil => rfl
  | cons e rest ih =>
      obtain ⟨k, v⟩ := e
      simp only [List.map_cons, List.mem_cons] at h
      push_neg at h
      unfold slabLookup
      rw [if_neg (fun hk => h.1 hk.symm)]
      exact ih h.2

/-- After removing a token from a slab with pairwise-distinct live tokens,
looking the token up again finds nothing. -/
lemma slabLookup_after_remove {α : Type} (t : Nat) (l : List (Nat × α))
    (h : (l.map Prod.fst).Nodup) : slabLookup t (slabRemoveEntry t l) = none := by
  induction l with
  | nil => rfl
  | cons e rest ih =>
      obtain ⟨k, v⟩ := e
      simp only [List.map_cons, List.nodup_cons] at h
      unfold slabRemoveEntry
      by_cases hk : k = t
      · rw [if_pos hk]
        exact slabLookup_eq_none_of_not_mem t rest (hk ▸ h.1)
      · rw [if_neg hk]
        unfold slabLookup
        rw [if_neg hk]
        exact ih h.2

/-- Poller-facing side effects of an eventloop callback, reified so that
their order can be stated.  `closeFd` is what dropping the `Io` wrapper
would do; the code instead emits `forgetFd` (`mem::forget`), which hands
the raw descriptor out without closing it. -/
inductive PollerAction
  | deregister (fd : Nat)
  | closeFd (fd : Nat)
  | forgetFd (fd : Nat)
  | readyHandle (h : Handle)
  | warnNoWaiter (t : Nat)
deriving DecidableEq, Repr

/-- Parking table of the linux/android `EventloopHandler`
(eventloop_handler.rs:22-24): token to `(Handle, Io)`, the `Io` carrying
the raw descriptor. -/
structure LinuxHandler where
  slabs : List (Nat × (Handle × Nat))
deriving DecidableEq, Repr

/-- Parking table of the BSD-family `EventloopHandler`
(eventloop_handler.rs:75-77): token to `Handle`, no descriptor retained. -/
structure BsdHandler where
  slabs : List (Nat × Handle)
deriving DecidableEq, Repr

/-- Common body of `writable` and `readable` of the linux/android
`impl Handler for EventloopHandler` (eventloop_handler.rs:32-66; the two
methods are textually identical and `readable`'s hint is unused):
`slabs.remove(token)`; on a hit, `event_loop.deregister(&fd)`, then
`mem::forget(fd)`, then `Scheduler::current().ready(hdl)`; on a miss, a
warning only. -/
def linuxCallback (hs : LinuxHandler) (sched : Scheduler) (t : Nat) :
    LinuxHandler × Scheduler × List PollerAction :=
  match slabLookup t hs.slabs with
  | some (hdl, fd) =>
      ({ slabs := slabRemoveEntry t hs.slabs },
        sched.ready hdl,
        [.deregister fd, .forgetFd fd, .readyHandle hdl])
  | none => (hs, sched, [.warnNoWaiter t])

/-- Common body of `writable` and `readable` of the BSD-family
`impl Handler for EventloopHandler` (eventloop_handler.rs:85-118):
`slabs.remove(token)`; on a hit, `Scheduler::current().ready(hdl)`; on a
miss, a warning only. -/
def bsdCallback (hs : BsdHandler) (sched : Scheduler) (t : Nat) :
    BsdHandler × Scheduler × List PollerAction :=
  match slabLookup t hs.slabs with
  | some hdl =>
      ({ slabs := slabRemoveEntry t hs.slabs },
        sched.ready hdl,
        [.readyHandle hdl])
  | none => (hs, sched, [.warnNoWaiter t])

/-- Claim C3. On both platform families: a readiness callback whose token
is absent from the parking table only warns, leaving the table and the
scheduler queues untouched; after any callback the delivered token is
absent from the table (the slot is removed before the ready transition);
consequently a second, redundant delivery of the same token is a no-op. -/
theorem redundant_event_delivery_noop
    (lh : LinuxHandler) (bh : BsdHandler) (s s' : Scheduler) (t : Nat)
    (hl : (lh.slabs.map Prod.fst).Nodup) (hb : (bh.slabs.map Prod.fst).Nodup) :
    (slabLookup t lh.slabs = none → linuxCallback lh s t = (lh, s, [.warnNoWaiter t])) ∧
    (slabLookup t bh.slabs = none → bsdCallback bh s' t = (bh, s', [.warnNoWaiter t])) ∧
    slabLookup t (linuxCallback lh s t).1.slabs = none ∧
    slabLookup t (bsdCallback bh s' t).1.slabs = none ∧
    (linuxCallback (linuxCallback lh s t).1 (linuxCallback lh s t).2.1 t =
       ((linuxCallback lh s t).1, (linuxCallback lh s t).2.1, [.warnNoWaiter t])) ∧
    (bsdCallback (bsdCallback bh s' t).1 (bsdCallback bh s' t).2.1 t =
       ((bsdCallback bh s' t).1, (bsdCallback bh s' t).2.1, [.warnNoWaiter t])) := by
  have hlmiss : ∀ (lh' : LinuxHandler) (s₀ : Scheduler),
      slabLookup t lh'.slabs = none →
      linuxCallback lh' s₀ t = (lh', s₀, [.warnNoWaiter t]) := by
    intro lh' s₀ hnone
    unfold linuxCallback
    rw [hnone]
  have hbmiss : ∀ (bh' : BsdHandler) (s₀ : Scheduler),
      slabLookup t bh'.slabs = none →
      bsdCallback bh' s₀ t = (bh', s₀, [.warnNoWaiter t]) := by
    intro bh' s₀ hnone
    unfold bsdCallback
    rw [hnone]
  have hlgone : slabLookup t (linuxCallback lh s t).1.slabs = none := by
    unfold linuxCallback
    cases hcase : slabLookup t lh.slabs with
    | none => simp [hcase]
    | some r =>
        obtain ⟨hdl, fd⟩ := r
        simpa [hcase] using slabLookup_after_remove t lh.slabs hl
  have hbgone : slabLookup t (bsdCallback bh s' t).1.slabs = none := by
    unfold bsdCallback
    cases hcase : slabLookup t bh.slabs with
    | none => simp [hcase]
    | some r => simpa [hcase] using slabLookup_after_remove t bh.slabs hb
  exact ⟨hlmiss lh s, hbmiss bh s', hlgone, hbgone,
    hlmiss _ _ hlgone, hbmiss _ _ hbgone⟩

/-- Witness for C3 with one concrete parked token on each platform
family. -/
theorem redundant_event_delivery_noop_witness :
    slabLookup 0 (linuxCallback ⟨[(0, (5, 9))]⟩ emptySched 0).1.slabs = none ∧
    slabLookup 0 (bsdCallback ⟨[(0, 5)]⟩ emptySched 0).1.slabs = none := by
  have h := redundant_event_delivery_noop ⟨[(0, (5, 9))]⟩ ⟨[(0, 5)]⟩
    emptySched emptySched 0 (by decide) (by decide)
  exact ⟨h.2.2.1, h.2.2.2.1⟩

/-- Claim C4. On linux/android, a delivered readiness event with a live
token emits exactly the actions `deregister fd`, then `forgetFd fd`, then
`readyHandle hdl`: the parked descriptor is explicitly deregistered from
the poller before the coroutine takes the ready path, the descriptor is
transferred out of the parking record (the slot is removed), and no
`closeFd` is ever emitted (the `Io` wrapper is forgotten, so the OS
descriptor stays open). -/
theorem linux_wakeup_deregisters_without_closing
    (lh : LinuxHandler) (s : Scheduler) (t : Nat) (hdl : Handle) (fd : Nat)
    (h : slabLookup t lh.slabs = some (hdl, fd)) :
    (linuxCallback lh s t).2.2 = [.deregister fd, .forgetFd fd, .readyHandle hdl] ∧
    (∀ f, PollerAction.closeFd f ∉ (linuxCallback lh s t).2.2) ∧
    (linuxCallback lh s t).2.1 = s.ready hdl ∧
    (linuxCallback lh s t).1.slabs = slabRemoveEntry t lh.slabs := by
  unfold linuxCallback
  rw [h]
  refine ⟨rfl, ?_, rfl, rfl⟩
  intro f hmem
  simp at hmem

/-- Witness for C4 at a concrete parked descriptor. -/
theorem linux_wakeup_deregisters_without_closing_witness :
    (linuxCallback ⟨[(2, (5, 9))]⟩ emptySched 2).2.2 =
      [.deregister 9, .forgetFd 9, .readyHandle 5] ∧
    (linuxCallback ⟨[(2, (5, 9))]⟩ emptySched 2).2.1 = emptySched.ready 5 := by
  have h := linux_wakeup_deregisters_without_closing ⟨[(2, (5, 9))]⟩
    emptySched 2 5 9 (by decide)
  exact ⟨h.1, h.2.2.1⟩

/-- Steps performed by the TCP I/O shims in `src/main.rs`, in order. -/
inductive TcpIoStep
  | parkInsert
  | registerInterest
  | blockCoroutine
  | ioAttempt
  | panicWouldBlock
deriving DecidableEq, Repr

/-- Outcome of a single non-blocking `read_slice` / `write_slice` call:
`Ok(Some(len))`, `Ok(None)` (would block), or `Err(..)`. -/
inductive TryIoResult
  | success (len : Nat)
  | wouldBlock
  | ioError
deriving DecidableEq, Repr

/-- What the shim call yields to its caller. -/
inductive ShimReturn
  | ok (len : Nat)
  | err
  | panicked
deriving DecidableEq, Repr

/-- Embeds `impl io::Read for TcpStream::read` (main.rs:311-337): insert
`(current coroutine, fd)` into the handler slab, register the stream for
readable interest (edge, one-shot), block the coroutine, and only after
wakeup perform the single non-blocking `read_slice`; `Ok(None)`
(would-block) panics, otherwise its result is returned. -/
def tcpStreamRead (attempt : TryIoResult) : List TcpIoStep × ShimReturn :=
  let steps : List TcpIoStep :=
    [.parkInsert, .registerInterest, .blockCoroutine, .ioAttempt]
  match attempt with
  | .success len => (steps, .ok len)
  | .wouldBlock => (steps ++ [.panicWouldBlock], .panicked)
  | .ioError => (steps, .err)

/-- Embeds `impl io::Write for TcpStream::write` (main.rs:341-367): same
shape as `read`, with writable interest and `write_slice`. -/
def tcpStreamWrite (attempt : TryIoResult) : List TcpIoStep × ShimReturn :=
  let steps : List TcpIoStep :=
    [.parkInsert, .registerInterest, .blockCoroutine, .ioAttempt]
  match attempt with
  | .success len => (steps, .ok len)
  | .wouldBlock => (steps ++ [.panicWouldBlock], .panicked)
  | .ioError => (steps, .err)

/-- Claim C6, counterexample. The claim says the shims first perform a
non-blocking attempt and register/park only if it would block.  In the
code, even when the (sole) I/O attempt succeeds, both shims park,
register and block before any attempt: the first three steps of the trace
contain `blockCoroutine` and no `ioAttempt`. -/
theorem tcp_shims_park_before_attempting :
    (tcpStreamRead (.success 5)).1 =
      [.parkInsert, .registerInterest, .blockCoroutine, .ioAttempt] ∧
    TcpIoStep.ioAttempt ∉ (tcpStreamRead (.success 5)).1.take 3 ∧
    TcpIoStep.blockCoroutine ∈ (tcpStreamRead (.success 5)).1.take 3 ∧
    (tcpStreamWrite (.success 5)).1 =
      [.parkInsert, .registerInterest, .blockCoroutine, .ioAttempt] ∧
    TcpIoStep.ioAttempt ∉ (tcpStreamWrite (.success 5)).1.take 3 ∧
    TcpIoStep.blockCoroutine ∈ (tcpStreamWrite (.success 5)).1.take 3 := by
  decide

/-- Claim C6, amended. `TcpStream::read` and `TcpStream::write`
unconditionally register readiness and park the current coroutine before
any I/O; on wakeup they perform exactly one non-blocking attempt and
return what it yields, except that a would-block on that attempt panics
(`"TcpStream read WOULDBLOCK"` / `"TcpStream write WOULDBLOCK"`) instead
of re-parking. -/
theorem tcp_shims_single_attempt_after_park (a : TryIoResult) :
    (tcpStreamRead a).1 =
      [.parkInsert, .registerInterest, .blockCoroutine, .ioAttempt] ++
        (if a = .wouldBlock then [.panicWouldBlock] else []) ∧
    (tcpStreamRead a).2 =
      (match a with
       | .success len => .ok len
       | .wouldBlock => .panicked
       | .ioError => .err) ∧
    tcpStreamWrite a = tcpStreamRead a := by
  cases a <;> simp [tcpStreamRead, tcpStreamWrite]

/-- Constant `MAX_TOKEN_NUM: usize = 102400` (eventloop_handler.rs:9), the
capacity handed to `Slab::new`. -/
def MAX_TOKEN_NUM : Nat := 102400

/-- Insertion into the bounded slab (`Slab::insert` returns `Err` when all
`MAX_TOKEN_NUM` slots are live; the token value itself comes from the
slab's free list, modelled here as a fresh key). -/
def slabInsert {α : Type} (l : List (Nat × α)) (v : α) :
    Option (Nat × List (Nat × α)) :=
  if l.length < MAX_TOKEN_NUM then
    let t := l.foldr (fun e m => max e.1 m) 0 + 1
    some (t, l ++ [(t, v)])
  else none

/-- Result of one `Scheduler::wait_event` call. -/
inductive WaitEventResult
  | blocked (token : Nat) (table : List (Nat × (Handle × Nat)))
  | registerFailed (table : List (Nat × (Handle × Nat)))
  | panicked
deriving DecidableEq, Repr

/-- Embeds `Scheduler::wait_event` for the linux family
(scheduler_wait_event.rs:25-35):

```rust
let token = self.eventloop_handler.slabs.insert((Coroutine::current(), ...)).unwrap();
try!(self.eventloop.register_opt(fd, token, interest, PollOpt::level()|PollOpt::oneshot()));
Coroutine::block();
Ok(())
```

The slab `insert` is immediately `.unwrap()`ed, so a full parking table
panics; a failing poller registration is propagated by `try!` as an
`io::Result` error (with the slab entry left in place); otherwise the
coroutine blocks on the fresh token. -/
def wait_event (slabs : List (Nat × (Handle × Nat))) (current : Handle)
    (fd : Nat) (registerOk : Bool) : WaitEventResult :=
  match slabInsert slabs (current, fd) with
  | none => .panicked
  | some (t, slabs') =>
      if registerOk then .blocked t slabs' else .registerFailed slabs'

/-- A parking table with all 102,400 slots live. -/
def fullParkingTable : List (Nat × (Handle × Nat)) :=
  (List.range MAX_TOKEN_NUM).map (fun i => (i, (0, 0)))

lemma wait_event_of_full (l : List (Nat × (Handle × Nat))) (c f : Nat)
    (r : Bool) (h : ¬ l.length < MAX_TOKEN_NUM) :
    wait_event l c f r = .panicked := by
  unfold wait_event slabInsert
  rw [if_neg h]

/-- Claim C7, counterexample. The claim says a park on a full parking
table returns an error that propagates to the calling coroutine.  In the
code the failed `insert` is `.unwrap()`ed, so `wait_event` on a table with
102,400 live entries panics instead of returning an `io::Result` error. -/
theorem wait_event_panics_on_full_table :
    fullParkingTable.length = MAX_TOKEN_NUM ∧
    wait_event fullParkingTable 1 2 true = .panicked := by
  have hlen : fullParkingTable.length = MAX_TOKEN_NUM := by
    unfold fullParkingTable
    rw [List.length_map, List.length_range]
  exact ⟨hlen, wait_event_of_full _ 1 2 true (by rw [hlen]; exact Nat.lt_irrefl _)⟩

/-- Claim C7, amended. When the parking table's 102,400 slots are
exhausted, the insert inside `wait_event` fails and the call panics (via
`.unwrap()`) rather than returning an error; on a non-full table the call
never panics, and the table — which only ever grows by the one inserted
entry — never exceeds 102,400 entries. -/
theorem wait_event_capacity (slabs : List (Nat × (Handle × Nat)))
    (current : Handle) (fd : Nat) (registerOk : Bool) :
    (wait_event slabs current fd registerOk = .panicked ↔
       ¬ slabs.length < MAX_TOKEN_NUM) ∧
    (∀ t tbl, wait_event slabs current fd registerOk = .blocked t tbl →
       tbl.length = slabs.length + 1 ∧ tbl.length ≤ MAX_TOKEN_NUM) ∧
    (∀ tbl, wait_event slabs current fd registerOk = .registerFailed tbl →
       tbl.length = slabs.length + 1 ∧ tbl.length ≤ MAX_TOKEN_NUM) := by
  unfold wait_event slabInsert
  by_cases hlen : slabs.length < MAX_TOKEN_NUM
  · rw [if_pos hlen]
    cases registerOk <;> simp [hlen] <;> omega
  · rw [if_neg hlen]
    simp [hlen]

/-- Witness for C7: parking on an empty table blocks on a token with one
live entry, well under capacity. -/
theorem wait_event_capacity_witness :
    wait_event [] 1 2 true = .panicked ↔ ¬ (0 : Nat) < MAX_TOKEN_NUM := by
  have h := (wait_event_capacity [] 1 2 true).1
  simpa using h

/-- State threaded through one iteration of `Scheduler::schedule`:
the two queues plus the number of live parking-table entries
(`eventloop_handler.slabs.len()`, which `has_io_waiting_task` tests). -/
structure LoopState where
  sched : Scheduler
  parking : Nat
deriving DecidableEq, Repr

/-- Embeds `Scheduler::has_io_waiting_task` (fifo_scheduler.rs:253-255):
true iff the parking table is non-empty. -/
def LoopState.has_io_waiting_task (ls : LoopState) : Bool :=
  ls.parking != 0

/-- Oracle describing one `resume` performed by the loop: the states the
coroutine reports before and after, the panic payload if any, plus the
effects user code causes *during* the resume — `parkAdd` parking-table
insertions (`wait_event`) and `spawned` handles passed to `ready`
(`Scheduler::spawn`). -/
structure ResumeEffect where
  pre : State
  res : Option PanicErr
  post : State
  parkAdd : Nat
  spawned : List Handle
deriving Repr

/-- Effect of resuming the already-popped handle `w` on the loop state:
if the pre-state admits a resume, the mid-resume `ready` calls and
parking insertions happen, then the post-state arm of `resume_coroutine`
runs on the resulting scheduler; otherwise `resume_coroutine` only logs
and the state is unchanged. -/
def resumeInLoop (ls : LoopState) (w : Handle) (e : ResumeEffect) : LoopState :=
  if e.pre = .Suspended ∨ e.pre = .Blocked then
    { sched := ((e.spawned.foldl Scheduler.ready ls.sched).resume_coroutine
        w e.pre e.res e.post).sched,
      parking := ls.parking + e.parkAdd }
  else
    { ls with sched := (ls.sched.resume_coroutine w e.pre e.res e.post).sched }

/-- Embeds `run_eventloop_once` (fifo_scheduler.rs:210-214) together with
the poller callbacks it dispatches: nothing happens when the parking table
is empty; otherwise each delivered event either unparks a coroutine
(`some h`: one slab entry removed, `h` readied) or is a redundant delivery
(`none`: warn only). -/
def run_eventloop_once (ls : LoopState) (events : List (Option Handle)) :
    LoopState :=
  if ls.parking != 0 then
    events.foldl
      (fun a ev =>
        match ev with
        | some h => { sched := a.sched.ready h, parking := a.parking - 1 }
        | none => a)
      ls
  else ls

/-- Embeds the loop `while self.run_one_work_in_private_queue() &&
!self.has_io_waiting_task() {}` (fifo_scheduler.rs:128).  `k` counts the
resumes performed so far this iteration (indexing the oracle); the result
carries the final state and the updated count.  Fuel bounds the number of
loop rounds; `none` means the fuel ran out. -/
def drainPrivateLoop : Nat → LoopState → (Nat → ResumeEffect) → Nat →
    Option (LoopState × Nat)
  | 0, _, _, _ => none
  | fuel + 1, ls, oracle, k =>
      match ls.sched.private_work with
      | [] => some (ls, k)
      | w :: rest =>
          let ls' := resumeInLoop
            { ls with sched := { ls.sched with private_work := rest } } w (oracle k)
          if ls'.has_io_waiting_task then some (ls', k + 1)
          else drainPrivateLoop fuel ls' oracle (k + 1)

/-- Embeds the loop `while self.run_one_work_in_public_queue() &&
!self.has_io_waiting_task() {}` (fifo_scheduler.rs:131).  The owner's
steal on its own stealer end takes the front of the deque;
`abortOracle` models a `Stolen::Abort` (contention), which makes
`run_one_work_in_public_queue` return false without resuming. -/
def drainPublicLoop : Nat → LoopState → (Nat → ResumeEffect) →
    (Nat → Bool) → Nat → Option (LoopState × Nat)
  | 0, _, _, _, _ => none
  | fuel + 1, ls, oracle, abortOracle, k =>
      match ls.sched.public_work_queue with
      | [] => some (ls, k)
      | w :: rest =>
          if abortOracle k then some (ls, k)
          else
            let ls' := resumeInLoop
              { ls with sched := { ls.sched with public_work_queue := rest } } w
              (oracle k)
            if ls'.has_io_waiting_task then some (ls', k + 1)
            else drainPublicLoop fuel ls' oracle abortOracle (k + 1)

/-- Observable outcome of one iteration of the `schedule` loop body. -/
structure IterResult where
  state : LoopState
  resumedLocal : Nat
  stoleCount : Nat
  continuedEarly : Bool
  slept : Bool
deriving DecidableEq, Repr

/-- Embeds one iteration of the body of `Scheduler::schedule`
(fifo_scheduler.rs:122-141), after `recv_msg` returned true:

```rust
self.run_eventloop_once();
while self.run_one_work_in_private_queue() && !self.has_io_waiting_task() {}
if self.has_io_waiting_task() { continue; }
while self.run_one_work_in_public_queue() && !self.has_io_waiting_task() {}
if self.has_io_waiting_task() { continue; }
let stolen_works = self.steal_works();
let has_stolen = stolen_works.len() != 0;
for work in stolen_works.into_iter() { self.ready(work); }
if !has_stolen { thread::sleep_ms(100); }
```

`stolen` is the batch `steal_works` collected from the neighbors (one
steal attempt per neighbor). -/
def scheduleIteration (fuel : Nat) (ls0 : LoopState)
    (events : List (Option Handle)) (oracle : Nat → ResumeEffect)
    (abortOracle : Nat → Bool) (stolen : List Handle) : Option IterResult :=
  match drainPrivateLoop fuel (run_eventloop_once ls0 events) oracle 0 with
  | none => none
  | some (ls2, k2) =>
      if ls2.has_io_waiting_task then
        some { state := ls2, resumedLocal := k2, stoleCount := 0,
               continuedEarly := true, slept := false }
      else
        match drainPublicLoop fuel ls2 oracle abortOracle k2 with
        | none => none
        | some (ls3, k3) =>
            if ls3.has_io_waiting_task then
              some { state := ls3, resumedLocal := k3, stoleCount := 0,
                     continuedEarly := true, slept := false }
            else
              some { state := { ls3 with
                       sched := stolen.foldl Scheduler.ready ls3.sched },
                     resumedLocal := k3, stoleCount := stolen.length,
                     continuedEarly := false, slept := stolen.length == 0 }

/-- Claim C8, counterexample. The claim says an iteration that resumed at
least one local coroutine does not sleep.  Here an iteration resumes one
coroutine from the shared queue (it finishes), steals nothing, and the
thread sleeps anyway: the sleep decision only tests `has_stolen`. -/
theorem iteration_sleeps_despite_local_resume :
    scheduleIteration 4
      ({ sched := { public_work_queue := [7], private_work := [] },
         parking := 0 })
      []
      (fun _ => { pre := .Suspended, res := none, post := .Finished,
                  parkAdd := 0, spawned := [] })
      (fun _ => false) [] =
    some ({ state := { sched := { public_work_queue := [], private_work := [] },
                       parking := 0 },
            resumedLocal := 1, stoleCount := 0,
            continuedEarly := false, slept := true }) := by
  rfl

/-- Claim C8, amended. In every terminating iteration of the scheduler
loop, the thread sleeps (≈100 ms) if and only if the iteration reached the
steal attempt and stole nothing from any peer: the number of locally
resumed coroutines plays no part in the decision, and an iteration cut
short by new parking entries (`continue`) skips both the steal and the
sleep. -/
theorem iteration_sleeps_iff_reached_steal_and_stole_nothing
    (fuel : Nat) (ls0 : LoopState) (events : List (Option Handle))
    (oracle : Nat → ResumeEffect) (abortOracle : Nat → Bool)
    (stolen : List Handle) (r : IterResult)
    (h : scheduleIteration fuel ls0 events oracle abortOracle stolen = some r) :
    r.slept = (!r.continuedEarly && r.stoleCount == 0) ∧
    (r.continuedEarly = true → r.stoleCount = 0) := by
  unfold scheduleIteration at h
  cases hpriv : drainPrivateLoop fuel (run_eventloop_once ls0 events) oracle 0 with
  | none => rw [hpriv] at h; exact Option.noConfusion h
  | some p =>
      obtain ⟨ls2, k2⟩ := p
      rw [hpriv] at h
      by_cases h2 : ls2.has_io_waiting_task
      · simp only [h2, if_true] at h
        cases h
        simp
      · simp only [h2, Bool.false_eq_true, if_false] at h
        cases hpub : drainPublicLoop fuel ls2 oracle abortOracle k2 with
        | none => rw [hpub] at h; exact Option.noConfusion h
        | some q =>
            obtain ⟨ls3, k3⟩ := q
            rw [hpub] at h
            by_cases h3 : ls3.has_io_waiting_task
            · simp only [h3, if_true] at h
              cases h
              simp
            · simp only [h3, Bool.false_eq_true, if_false] at h
              cases h
              simp

/-- Witness for C8 at a trivial iteration (both queues empty, nothing
parked, nothing stolen): the steal attempt is reached and yields nothing,
so the iteration sleeps. -/
theorem iteration_sleeps_iff_witness :
    ({ state := { sched := { public_work_queue := [], private_work := [] },
                  parking := 0 },
       resumedLocal := 0, stoleCount := 0, continuedEarly := false,
       slept := true } : IterResult).slept = true := by
  have h := iteration_sleeps_iff_reached_steal_and_stole_nothing 1
    { sched := { public_work_queue := [], private_work := [] }, parking := 0 }
    [] (fun _ => { pre := .Suspended, res := none, post := .Finished,
                   parkAdd := 0, spawned := [] })
    (fun _ => false) [] _ rfl
  exact h.1

/-- Global view of the registration protocol.  A scheduler is identified
with its unique `(Sender, Stealer)` pair (each `Scheduler::new` makes a
fresh channel and deque, so the pairs are distinct); `registry` is the
process-wide `THREAD_HANDLES` vector, `inboxes i` the pending
`NewNeighbor` payloads sent to scheduler `i`'s channel, and `neighbors i`
scheduler `i`'s local `neighbors` vector. -/
structure MeshState where
  registry : List Nat
  inboxes : Nat → List Nat
  neighbors : Nat → List Nat

/-- The initial mesh: empty registry, no messages, no neighbors. -/
def initMesh : MeshState :=
  { registry := [], inboxes := fun _ => [], neighbors := fun _ => [] }

/-- Transitions of the registration protocol.

`create i` embeds `Scheduler::new` (fifo_scheduler.rs:52-80) under the
registry lock: broadcast `NewNeighbor(tx, stealer)` — the pair `i` — to
every entry already in the registry, snapshot the current registry as the
new scheduler's `neighbors`, then append `i` to the registry.  The
freshness hypothesis `i ∉ registry` models that the channel and deque are
newly allocated, hence distinct from every registered pair.

`recv i j` embeds the `NewNeighbor` arm of `Scheduler::recv_msg`
(fifo_scheduler.rs:196-199): pop the pair `j` from `i`'s inbox and push it
onto `i`'s `neighbors`. -/
inductive MeshStep : MeshState → MeshState → Prop
  | create (m : MeshState) (i : Nat) (hfresh : i ∉ m.registry) :
      MeshStep m
        { registry := m.registry ++ [i],
          inboxes := fun j =>
            if j ∈ m.registry then m.inboxes j ++ [i] else m.inboxes j,
          neighbors := fun j => if j = i then m.registry else m.neighbors j }
  | recv (m : MeshState) (i j : Nat) (rest : List Nat)
      (h : m.inboxes i = j :: rest) :
      MeshStep m
        { registry := m.registry,
          inboxes := fun k => if k = i then rest else m.inboxes k,
          neighbors := fun k =>
            if k = i then m.neighbors k ++ [j] else m.neighbors k }

/-- Mesh states reachable from process start. -/
def MeshReachable (m : MeshState) : Prop :=
  Relation.ReflTransGen MeshStep initMesh m

/-- Invariant carried through the protocol: no scheduler's neighbors
vector contains its own pair, no inbox holds its owner's own pair, and a
scheduler's neighbors all come from the registry (so they are
distinct from any never-registered pair). -/
def MeshInv (m : MeshState) : Prop :=
  (∀ i, i ∉ m.neighbors i) ∧ (∀ i j, j ∈ m.inboxes i → j ≠ i)

lemma meshStep_inv {m m' : MeshState} (hi : MeshInv m) (h : MeshStep m m') :
    MeshInv m' := by
  obtain ⟨hnb, hbox⟩ := hi
  cases h with
  | create i hfresh =>
      constructor
      · intro j
        by_cases hj : j = i
        · subst hj; simpa using hfresh
        · simpa [hj] using hnb j
      · intro k j hmem
        by_cases hk : k ∈ m.registry
        · simp only [hk, if_true, List.mem_append, List.mem_singleton] at hmem
          rcases hmem with hmem | hmem
          · exact hbox k j hmem
          · subst hmem
            intro hji
            subst hji
            exact hfresh hk
        · simp only [hk, if_false] at hmem
          exact hbox k j hmem
  | recv i j rest hbox' =>
      constructor
      · intro k
        by_cases hk : k = i
        · subst hk
          simp only [if_pos rfl]
          intro hmem
          rcases List.mem_append.mp hmem with hmem | hmem
          · exact hnb k hmem
          · have hkj : k = j := List.mem_singleton.mp hmem
            exact hbox k j (hbox' ▸ List.mem_cons_self j rest) hkj.symm
        · simpa [hk] using hnb k
      · intro k l hmem
        by_cases hk : k = i
        · subst hk
          simp only [if_pos rfl] at hmem
          exact hbox k l (hbox' ▸ List.mem_cons_of_mem j hmem)
        · simp only [if_neg hk] at hmem
          exact hbox k l hmem

/-- Claim C10. In every reachable state of the registration protocol, no
scheduler's `neighbors` vector contains its own `(sender, stealer)` pair,
and no pending `NewNeighbor` message carries its receiver's own pair.
Consequently `steal_works`, which attempts one steal per entry of
`neighbors`, never steals from the scheduler's own shared queue, and a
scheduler never sends a control message to itself. -/
theorem neighbors_never_contain_self (m : MeshState) (h : MeshReachable m) :
    (∀ i, i ∉ m.neighbors i) ∧ (∀ i j, j ∈ m.inboxes i → j ≠ i) := by
  have hinv : MeshInv m := by
    induction h with
    | refl => exact ⟨fun i => List.not_mem_nil i, fun i j hj => absurd hj (List.not_mem_nil j)⟩
    | tail _ hstep ih => exact meshStep_inv ih hstep
  exact hinv

/-- Witness for C10 at the initial mesh state. -/
theorem neighbors_never_contain_self_witness :
    (0 : Nat) ∉ initMesh.neighbors 0 :=
  (neighbors_never_contain_self initMesh Relation.ReflTransGen.refl).1 0

end CoroutineDemo
